import Mathlib

/-!
Verification development for the mas-waste-collection repository.

Shallow embedding of the Python sources (`environment.py`, `bin_agent.py`,
`truck_agent.py`) into Lean.  Python floats are modelled as rationals (ℚ);
Python's `round(x, 2)` is modelled as round-half-even to two decimal places
on the exact value; Python dictionaries are modelled as association lists
whose keys are kept unique by the insert operation; Python sets are modelled
as duplicate-free lists.  Randomness (`random.uniform`, `random.choice`,
`random.random`) is modelled by explicit parameters: a drawn value together
with a range hypothesis, a choice index, or a boolean roll.  Exceptions are
modelled with `Except`, where the error value carries the state at the point
of the raise.
-/

namespace WasteCollection

/-- `TrafficEvent` dataclass (environment.py lines 138-144). -/
structure TrafficEvent where
  position : ℤ × ℤ
  duration : ℤ
  multiplier : ℚ
deriving DecidableEq, Repr

/-- The `Environment` object (environment.py).  Configuration values that the
embedded operations read (`rush_hours` multipliers, depot and fuel-station
positions, grid size) are carried as fields. -/
structure Env where
  size : ℕ
  current_time : ℤ
  current_day : ℤ
  depotPos : ℤ × ℤ
  fuelStations : List (ℤ × ℤ)
  activeEvents : List TrafficEvent
  totalEvents : ℕ
  morningMultiplier : ℚ
  eveningMultiplier : ℚ
deriving DecidableEq, Repr

/-- `Environment.calculate_distance` (environment.py lines 30-32): Manhattan
distance. -/
def calculate_distance (s e : ℤ × ℤ) : ℤ :=
  |e.1 - s.1| + |e.2 - s.2|

/-- `Environment.is_rush_hour` (environment.py lines 34-38). -/
def Env.is_rush_hour (env : Env) : Bool :=
  decide ((7 ≤ env.current_time ∧ env.current_time ≤ 9) ∨
    (17 ≤ env.current_time ∧ env.current_time ≤ 19))

/-- `Environment.get_rush_hour_multiplier` (environment.py lines 40-48). -/
def Env.get_rush_hour_multiplier (env : Env) : ℚ :=
  if ¬ env.is_rush_hour then 1
  else if 7 ≤ env.current_time ∧ env.current_time ≤ 9 then env.morningMultiplier
  else env.eveningMultiplier

/-- `Environment.check_traffic_event` (environment.py lines 50-55): the
multiplier of the FIRST active event within Manhattan distance 2, else 1. -/
def Env.check_traffic_event (env : Env) (pos : ℤ × ℤ) : ℚ :=
  match env.activeEvents.find? (fun ev => decide (calculate_distance pos ev.position ≤ 2)) with
  | some ev => ev.multiplier
  | none => 1

/-- `Environment.get_travel_cost` (environment.py lines 57-71). -/
def Env.get_travel_cost (env : Env) (s e : ℤ × ℤ) : ℚ :=
  (calculate_distance s e : ℚ) *
    max env.get_rush_hour_multiplier
      (max (env.check_traffic_event s) (env.check_traffic_event e))

/-- One step of `event.duration -= 1` (environment.py lines 89-90). -/
def decrementEvent (ev : TrafficEvent) : TrafficEvent :=
  { ev with duration := ev.duration - 1 }

/-- `Environment.step_time` (environment.py lines 73-93).  The events that
`_generate_random_events` would randomly create this tick are passed in as
`gen`; they are appended only when the (already advanced) time lies in the
daytime window `6 ≤ t ≤ 20`, mirroring lines 95-129.  Note the source order:
events are FILTERED on `duration > 0` first and DECREMENTED afterwards. -/
def Env.step_time (env : Env) (gen : List TrafficEvent) : Env :=
  let t0 := env.current_time + 1
  let t := if t0 ≥ 24 then 0 else t0
  let d := if t0 ≥ 24 then env.current_day + 1 else env.current_day
  let evs := (env.activeEvents.filter (fun ev => decide (0 < ev.duration))).map decrementEvent
  if 6 ≤ t ∧ t ≤ 20 then
    { env with current_time := t, current_day := d,
               activeEvents := evs ++ gen, totalEvents := env.totalEvents + gen.length }
  else
    { env with current_time := t, current_day := d, activeEvents := evs }

/-- Round-half-even of a rational to an integer.  This is the tie rule used by
CPython's `round`. -/
def roundHalfEven (q : ℚ) : ℤ :=
  if q - ⌊q⌋ < 1/2 then ⌊q⌋
  else if 1/2 < q - ⌊q⌋ then ⌊q⌋ + 1
  else if ⌊q⌋ % 2 = 0 then ⌊q⌋ else ⌊q⌋ + 1

/-- Python's `round(x, 2)` (used in bin_agent.py line 269), modelled as
round-half-even to two decimal places of the exact value. -/
def round2 (q : ℚ) : ℚ :=
  (roundHalfEven (q * 100) : ℚ) / 100

/-- A concrete environment holding one traffic event whose remaining duration
is 1, used to exercise `step_time`. -/
def envC3 : Env :=
  { size := 10, current_time := 0, current_day := 1, depotPos := (0, 0),
    fuelStations := [(2, 2)], activeEvents := [⟨(5, 5), 1, 2⟩],
    totalEvents := 1, morningMultiplier := 3/2, eveningMultiplier := 7/5 }

/-! ## Message vocabulary

The body of an `inform` message as the bin's `handle_inform` sees it
(bin_agent.py lines 204-228): the body may fail `json.loads`, parse to JSON
without a `"status"` field, or carry a status with an optional
`"repair_time"` field. -/

/-- Body of an `inform` message, as parsed by `HandleProposals.handle_inform`. -/
inductive InformBody
  /-- A body that is not valid JSON (e.g. the plain text `COLLECTION_FAILED`
  sent by `HandleAcceptance.run`, truck_agent.py line 313). -/
  | raw (text : String)
  /-- Valid JSON without a `"status"` field. -/
  | jsonNoStatus
  /-- Valid JSON with a `"status"` field and an optional `"repair_time"`. -/
  | jsonStatus (status : String) (repairTime : Option ℚ)
deriving DecidableEq, Repr

/-- The performative vocabulary together with each performative's body. -/
inductive Payload
  | cfp (pos : ℤ × ℤ) (level : ℚ) (time : ℤ) (isRetry : Bool)
  | propose (cost : ℚ)
  | refuse (reason : String)
  | acceptProposal (pos : ℤ × ℤ) (level : ℚ) (time : ℤ)
  | rejectProposal (reason : String) (selectedCost yourCost : ℚ)
  | inform (body : InformBody)
deriving DecidableEq, Repr

/-- A message on the wire: destination, sender and payload. -/
structure Msg where
  dst : String
  src : String
  payload : Payload
deriving DecidableEq, Repr

/-! ## Bin agent (bin_agent.py) -/

/-- Mutable state of a `BinAgent`, with the configuration values its
operations read.  `proposals` models the Python dict as an association list
whose keys stay unique (insertion is by `dictInsert`); `trucks_responded`
models the Python set as a duplicate-free list (insertion by `setAdd`). -/
structure BinState where
  jid : String
  position : ℤ × ℤ
  capacity : ℚ
  threshold : ℚ
  fillRateMin : ℚ
  fillRateMax : ℚ
  truckJids : List String
  current_level : ℚ
  waiting_for_collection : Bool
  cfp_start_time : Option ℚ
  proposal_timeout : ℚ
  proposals : List (String × ℚ)
  trucks_responded : List String
  selected_truck : Option String
  last_collection_time : Option ℤ
  total_collections_received : ℕ
  total_waste_generated : ℚ
  overflow_incidents : ℕ
  total_mission_costs : ℚ
deriving DecidableEq, Repr

/-- Python dict assignment `m[k] = v`: replace in place if the key is
present, else append. -/
def dictInsert (m : List (String × ℚ)) (k : String) (v : ℚ) : List (String × ℚ) :=
  if m.any (fun p => p.1 = k) then m.map (fun p => if p.1 = k then (k, v) else p)
  else m ++ [(k, v)]

/-- Python set insertion `s.add(x)`. -/
def setAdd (l : List String) (x : String) : List String :=
  if x ∈ l then l else l ++ [x]

/-- `BinAgent.reset_collection_state` (bin_agent.py lines 60-66). -/
def BinState.reset_collection_state (s : BinState) : BinState :=
  { s with waiting_for_collection := false, cfp_start_time := none,
           proposals := [], trucks_responded := [], selected_truck := none }

/-- `BinAgent.record_collection` (bin_agent.py lines 68-70). -/
def BinState.record_collection (s : BinState) : BinState :=
  { s with total_collections_received := s.total_collections_received + 1 }

/-- `BinAgent.record_waste_generation` (bin_agent.py lines 72-76): called
AFTER the level update, so the overflow test reads the new level. -/
def BinState.record_waste_generation (s : BinState) (amount : ℚ) : BinState :=
  let s1 := { s with total_waste_generated := s.total_waste_generated + amount }
  if s1.current_level ≥ s1.capacity then
    { s1 with overflow_incidents := s1.overflow_incidents + 1 }
  else s1

/-- The minimum over the proposal costs rounded to 2 decimals:
`min_cost = min(proposals_by_cost.keys())` (bin_agent.py line 275). -/
def minRoundedCost (proposals : List (String × ℚ)) : ℚ :=
  match proposals.map (fun p => round2 p.2) with
  | [] => 0
  | c :: cs => cs.foldl min c

/-- `proposals_by_cost[min_cost]` (bin_agent.py lines 266-276): the trucks
whose rounded cost equals the minimum, in insertion order, as built by the
grouping loop. -/
def tieGroup (proposals : List (String × ℚ)) : List String :=
  (proposals.filter (fun p => decide (round2 p.2 = minRoundedCost proposals))).map Prod.fst

/-- `HandleProposals.send_rejections` (bin_agent.py lines 294-310): one
`reject-proposal` per proposing truck other than the selected one. -/
def sendRejections (s : BinState) (selectedTruck : String) (selectedCost : ℚ) : List Msg :=
  (s.proposals.filter (fun p => p.1 ≠ selectedTruck)).map (fun p =>
    { dst := p.1, src := s.jid,
      payload := .rejectProposal "better_proposal_selected" selectedCost p.2 })

/-- `HandleProposals.send_acceptance` (bin_agent.py lines 312-327). -/
def sendAcceptance (s : BinState) (selectedTruck : String) (envTime : ℤ) : Msg :=
  { dst := selectedTruck, src := s.jid,
    payload := .acceptProposal s.position s.current_level envTime }

/-- `HandleProposals.select_best_proposal` (bin_agent.py lines 257-292).
`random.choice` over the tie group is modelled by the index `choice`
(taken modulo the group length). -/
def BinState.select_best_proposal (s : BinState) (envTime : ℤ) (choice : ℕ) :
    BinState × List Msg :=
  if s.proposals = [] ∨ s.selected_truck ≠ none then (s.reset_collection_state, [])
  else
    let minCost := minRoundedCost s.proposals
    let group := tieGroup s.proposals
    let winner := group.getD (choice % group.length) ""
    let s1 := { s with selected_truck := some winner,
                       total_mission_costs := s.total_mission_costs + minCost }
    (s1, sendRejections s winner minCost ++ [sendAcceptance s winner envTime])

/-- `MonitorLevel.initiate_cfp` (bin_agent.py lines 123-147):
`wallClock` is the value of `time.time()`. -/
def BinState.initiate_cfp (s : BinState) (envTime : ℤ) (wallClock : ℚ) :
    BinState × List Msg :=
  let s1 := { s with waiting_for_collection := true, cfp_start_time := some wallClock,
                     proposals := [], trucks_responded := [], selected_truck := none }
  (s1, s1.truckJids.map (fun t =>
    { dst := t, src := s1.jid, payload := .cfp s1.position s1.current_level envTime false }))

/-- `HandleProposals.initiate_new_cfp` (bin_agent.py lines 230-255): same as
`initiate_cfp` but the body carries `is_retry`. -/
def BinState.initiate_new_cfp (s : BinState) (envTime : ℤ) (wallClock : ℚ) :
    BinState × List Msg :=
  let s1 := { s with waiting_for_collection := true, cfp_start_time := some wallClock,
                     proposals := [], trucks_responded := [], selected_truck := none }
  (s1, s1.truckJids.map (fun t =>
    { dst := t, src := s1.jid, payload := .cfp s1.position s1.current_level envTime true }))

/-- `HandleProposals.handle_proposal` (bin_agent.py lines 171-184).  Note the
guard checks only `sender not in trucks_responded` and `not selected_truck`;
it does NOT check `waiting_for_collection`. -/
def BinState.handle_proposal (s : BinState) (sender : String) (cost : ℚ)
    (envTime : ℤ) (choice : ℕ) : BinState × List Msg :=
  if sender ∉ s.trucks_responded ∧ s.selected_truck = none then
    let s1 := { s with proposals := dictInsert s.proposals sender cost,
                       trucks_responded := setAdd s.trucks_responded sender }
    if s1.trucks_responded.length = s1.truckJids.length then
      s1.select_best_proposal envTime choice
    else (s1, [])
  else (s, [])

/-- `HandleProposals.handle_refuse` (bin_agent.py lines 186-202). -/
def BinState.handle_refuse (s : BinState) (sender : String)
    (envTime : ℤ) (choice : ℕ) : BinState × List Msg :=
  let s1 := { s with proposals := s.proposals.filter (fun p => p.1 ≠ sender),
                     trucks_responded := setAdd s.trucks_responded sender }
  if s1.trucks_responded.length = s1.truckJids.length then
    s1.select_best_proposal envTime choice
  else (s1, [])

/-- `HandleProposals.handle_inform` (bin_agent.py lines 204-228).  A body that
fails `json.loads`, has no `"status"`, carries an unknown status, or carries
`TRUCK_MALFUNCTION` without `repair_time` (a `KeyError`, caught by the
handler's `except`) leaves the state unchanged. -/
def BinState.handle_inform (s : BinState) (body : InformBody)
    (envTime : ℤ) (wallClock : ℚ) : BinState × List Msg :=
  match body with
  | .raw _ => (s, [])
  | .jsonNoStatus => (s, [])
  | .jsonStatus status repairTime =>
    if status = "TRUCK_MALFUNCTION" then
      match repairTime with
      | none => (s, [])
      | some _ => (s.reset_collection_state).initiate_new_cfp envTime wallClock
    else if status = "COLLECTION_COMPLETE" then
      let s1 := { s with current_level := 0, last_collection_time := some envTime }
      ((s1.record_collection).reset_collection_state, [])
    else (s, [])

/-- The fill increment: `random.uniform(min, max) * time_multiplier`, where
the multiplier is `0.5` during the night hours `0 ≤ hour ≤ 6` and `1.0`
otherwise (bin_agent.py lines 88-93).  `u` is the drawn uniform value. -/
def fillAmount (envTime : ℤ) (u : ℚ) : ℚ :=
  u * (if 0 ≤ envTime ∧ envTime ≤ 6 then 1/2 else 1)

/-- The level update and waste recording of `MonitorLevel.run`
(bin_agent.py lines 88-105): add the fill increment to the level, capping at
capacity, then call `record_waste_generation` with the increment. -/
def BinState.fill_update (s : BinState) (envTime : ℤ) (u : ℚ) : BinState :=
  let fill_rate := fillAmount envTime u
  let new_level := s.current_level + fill_rate
  let s1 := if new_level > s.capacity then { s with current_level := s.capacity }
            else { s with current_level := new_level }
  s1.record_waste_generation fill_rate

/-- `MonitorLevel.run` (bin_agent.py lines 79-112) together with its helper
`handle_proposal_timeout` (lines 114-121).  `u` is the value drawn by
`random.uniform(fill_rate.min, fill_rate.max)` and `wallClock` the value of
`time.time()`. -/
def BinState.monitor_level (s : BinState) (envTime : ℤ) (wallClock : ℚ)
    (u : ℚ) (choice : ℕ) : BinState × List Msg :=
  if s.waiting_for_collection then
    match s.cfp_start_time with
    | some t0 =>
      if wallClock - t0 ≥ s.proposal_timeout then
        if s.proposals = [] then (s.reset_collection_state, [])
        else s.select_best_proposal envTime choice
      else (s, [])
    | none => (s, [])
  else
    let s2 := s.fill_update envTime u
    if s2.current_level ≥ s2.capacity * s2.threshold then s2.initiate_cfp envTime wallClock
    else (s2, [])

/-! ## Bin transition system

One label per operation the bin's behaviors perform: the periodic
`MonitorLevel.run` and the three dispatch branches of `HandleProposals.run`.
Incoming messages are arbitrary (the agent places no constraint on what the
network delivers), and the randomness of each operation is part of the
label. -/

/-- Labels for the bin agent's operations. -/
inductive BinLabel
  | monitor (envTime : ℤ) (wallClock : ℚ) (u : ℚ) (choice : ℕ)
  | propose (sender : String) (cost : ℚ) (envTime : ℤ) (choice : ℕ)
  | refuse (sender : String) (envTime : ℤ) (choice : ℕ)
  | inform (body : InformBody) (envTime : ℤ) (wallClock : ℚ)

/-- One bin operation: the state after and the messages sent. -/
def binStep : BinLabel → BinState → BinState × List Msg
  | .monitor t w u c, s => s.monitor_level t w u c
  | .propose sender cost t c, s => s.handle_proposal sender cost t c
  | .refuse sender t c, s => s.handle_refuse sender t c
  | .inform b t w, s => s.handle_inform b t w

/-- Reachability of a bin state from another by any sequence of operations. -/
def BinReach (s0 s : BinState) : Prop :=
  Relation.ReflTransGen (fun a b => ∃ l, (binStep l a).1 = b) s0 s

/-- The invariant claimed by C2:
`awaitingCollection = false ⇒ proposals empty ∧ selectedTruck = None`. -/
@[reducible] def InvC2 (s : BinState) : Prop :=
  s.waiting_for_collection = false → s.proposals = [] ∧ s.selected_truck = none

/-- The invariant claimed by C7: `proposals.keys ⊆ respondedTrucks`. -/
@[reducible] def InvC7 (s : BinState) : Prop :=
  ∀ k ∈ s.proposals.map Prod.fst, k ∈ s.trucks_responded

/-- A bin in its start-up state (bin_agent.py lines 38-47), knowing two
trucks, as built by `BinAgent.__init__` with a concrete configuration. -/
def binInit0 : BinState :=
  { jid := "bin1@localhost", position := (4, 4), capacity := 100,
    threshold := 7/10, fillRateMin := 0, fillRateMax := 20,
    truckJids := ["truck1@localhost", "truck2@localhost"],
    current_level := 0, waiting_for_collection := false, cfp_start_time := none,
    proposal_timeout := 5, proposals := [], trucks_responded := [],
    selected_truck := none, last_collection_time := none,
    total_collections_received := 0, total_waste_generated := 0,
    overflow_incidents := 0, total_mission_costs := 0 }

/-- A bin mid-negotiation with one recorded proposal, used to instantiate
the preservation theorems. -/
def binAwait1 : BinState :=
  { binInit0 with current_level := 80, waiting_for_collection := true,
                  cfp_start_time := some 0,
                  proposals := [("truck1@localhost", 3)],
                  trucks_responded := ["truck1@localhost"] }

/-- A bin nearly full (level 95 of capacity 100), not awaiting collection,
used to instantiate the fill-update theorem. -/
def binInit95 : BinState :=
  { binInit0 with current_level := 95 }

/-- The proposal map of the spec's worked selection example,
`{A: 3.0, B: 2.995, C: 3.0}`, in insertion order. -/
def proposalsABC : List (String × ℚ) :=
  [("A", 3), ("B", 2995/1000), ("C", 3)]

/-- A bin holding the example proposals, ready for selection. -/
def binABC : BinState :=
  { binInit0 with truckJids := ["A", "B", "C"],
                  current_level := 90, waiting_for_collection := true,
                  cfp_start_time := some 0, proposals := proposalsABC,
                  trucks_responded := ["A", "B", "C"] }

/-! ## Truck agent (truck_agent.py) -/

/-- Mutable state of a `TruckAgent` together with the configuration values
its operations read (truck_agent.py lines 23-49).  `waste_threshold_frac` is
`config['waste']['threshold']`; `fuel_threshold` is already the product
`fuel.capacity * fuel.threshold` as computed in `__init__`. -/
structure TruckState where
  jid : String
  position : ℤ × ℤ
  speed : ℚ
  fuel_capacity : ℚ
  fuel_level : ℚ
  fuel_consumption : ℚ
  fuel_threshold : ℚ
  waste_capacity : ℚ
  waste_threshold_frac : ℚ
  current_waste : ℚ
  busy : Bool
  current_bin : Option String
  malfunctioned : Bool
  malfunction_end_time : Option ℚ
  malfunction_end_day : Option ℤ
  service_start_time : Option ℤ
  service_start_day : Option ℤ
  total_collections : ℕ
  total_distance : ℤ
  total_fuel_used : ℚ
  refuel_count : ℕ
  depot_returns : ℕ
  total_waste_collected : ℚ
  busy_time : ℚ
  malfunction_count : ℕ
deriving DecidableEq, Repr

/-- A `refuse` reply (truck_agent.py lines 251-256). -/
def mkRefuse (src dst reason : String) : Msg :=
  { dst := dst, src := src, payload := .refuse reason }

/-- A `propose` reply (truck_agent.py lines 244-249). -/
def mkPropose (src dst : String) (cost : ℚ) : Msg :=
  { dst := dst, src := src, payload := .propose cost }

/-- The `inform{status: TRUCK_MALFUNCTION, repair_time}` message
(truck_agent.py lines 328-334 and 391-395); `repair_time` is
`malfunction_end_time - env.current_time`. -/
def mkInformMalf (s : TruckState) (env : Env) (dst : String) : Msg :=
  { dst := dst, src := s.jid,
    payload := .inform (.jsonStatus "TRUCK_MALFUNCTION"
      (some (s.malfunction_end_time.getD 0 - (env.current_time : ℚ)))) }

/-- The `inform{status: COLLECTION_COMPLETE}` message (lines 365-370). -/
def mkInformComplete (s : TruckState) (dst : String) : Msg :=
  { dst := dst, src := s.jid, payload := .inform (.jsonStatus "COLLECTION_COMPLETE" none) }

/-- The `inform{status: COLLECTION_FAILED}` JSON message (lines 396-399). -/
def mkInformFailedJson (s : TruckState) (dst : String) : Msg :=
  { dst := dst, src := s.jid, payload := .inform (.jsonStatus "COLLECTION_FAILED" none) }

/-- The inform whose body is the PLAIN string `COLLECTION_FAILED` — not JSON —
sent by `HandleAcceptance.run`'s own `except` (lines 310-314). -/
def mkInformPlainFailed (s : TruckState) (dst : String) : Msg :=
  { dst := dst, src := s.jid, payload := .inform (.raw "COLLECTION_FAILED") }

/-- Does a message carry one of the failure informs
(`COLLECTION_FAILED` in either form, or `TRUCK_MALFUNCTION`)? -/
def isFailInform (m : Msg) : Bool :=
  match m.payload with
  | .inform (.raw t) => t == "COLLECTION_FAILED"
  | .inform (.jsonStatus st _) => st == "COLLECTION_FAILED" || st == "TRUCK_MALFUNCTION"
  | _ => false

/-- `TruckAgent.find_nearest_fuel_station` (lines 51-64): first station of
minimal travel cost, `none` when there are no stations (Python would return
`None` and crash in `travel_to`). -/
def find_nearest_fuel_station (env : Env) (pos : ℤ × ℤ) : Option (ℤ × ℤ) :=
  (env.fuelStations.foldl (fun acc stPos =>
      let d := env.get_travel_cost pos stPos
      match acc with
      | none => some (stPos, d)
      | some (bp, bd) => if d < bd then some (stPos, d) else some (bp, bd))
    none).map Prod.fst

/-- `TruckAgent.record_collection` (lines 66-69): note it adds the WHOLE
current load (already including the newly collected waste) to
`total_waste_collected`. -/
def TruckState.record_collection (s : TruckState) : TruckState :=
  { s with total_collections := s.total_collections + 1,
           total_waste_collected := s.total_waste_collected + s.current_waste }

/-- `TruckAgent.check_malfunction` (lines 105-130).  `roll` is the outcome of
`random.random() < malfunction_probability` and `repairDur` the uniformly
drawn repair duration; Python float `//`/`%` are floor division and the
matching remainder. -/
def TruckState.check_malfunction (s : TruckState) (env : Env) (roll : Bool)
    (repairDur : ℚ) : TruckState × Bool :=
  if ¬ s.malfunctioned ∧ roll then
    let endTime := (env.current_time : ℚ) + repairDur
    let endDay2 := if endTime ≥ 24 then env.current_day + ⌊endTime / 24⌋ else env.current_day
    let endTime2 := if endTime ≥ 24 then endTime - 24 * ⌊endTime / 24⌋ else endTime
    ({ s with malfunction_count := s.malfunction_count + 1,
              malfunctioned := true,
              malfunction_end_day := some endDay2,
              malfunction_end_time := some endTime2,
              position := env.depotPos }, true)
  else (s, false)

/-- `TruckAgent.update_malfunction_status` (lines 132-158). -/
def TruckState.update_malfunction_status (s : TruckState) (env : Env) : TruckState :=
  if s.malfunctioned then
    match s.malfunction_end_time, s.malfunction_end_day with
    | some et, some ed =>
      if env.current_day > ed ∨ (env.current_day = ed ∧ (env.current_time : ℚ) ≥ et) then
        { s with malfunctioned := false, malfunction_end_time := none,
                 malfunction_end_day := none, service_start_time := none }
      else s
    | _, _ => s
  else s

/-- `TruckAgent.start_service` (lines 76-82): records the start only when the
truck was not already busy.  (`HandleAcceptance.run` sets `busy` before the
mission calls this, so within a mission it is a no-op.) -/
def TruckState.start_service (s : TruckState) (env : Env) : TruckState :=
  if ¬ s.busy then
    { s with busy := true, service_start_time := some env.current_time,
             service_start_day := some env.current_day }
  else s

/-- `TruckAgent.end_service` (lines 84-103).  The source tests only
`service_start_time`; `service_start_day` is always set together with it. -/
def TruckState.end_service (s : TruckState) (env : Env) : TruckState :=
  let s1 := match s.service_start_time, s.service_start_day with
    | some st, some sd =>
      let hours_from_days := (env.current_day - sd) * 24
      let elapsed := if env.current_time < st then (24 - st) + env.current_time
                     else env.current_time - st
      { s with busy_time := s.busy_time + ((hours_from_days + elapsed : ℤ) : ℚ),
               service_start_time := none, service_start_day := none }
    | _, _ => s
  { s1 with busy := false }

/-- `HandleCFP.calculate_mission_cost` (lines 258-287): `none` models the
`float('inf')` returned when the required fuel exceeds the fuel level. -/
def calculate_mission_cost (env : Env) (s : TruckState) (binPos : ℤ × ℤ)
    (waste_level : ℚ) : Option ℚ :=
  let dist_to_bin := env.get_travel_cost s.position binPos
  let total_distance :=
    if s.current_waste + waste_level ≥ s.waste_capacity * s.waste_threshold_frac
    then dist_to_bin + env.get_travel_cost binPos env.depotPos
    else dist_to_bin
  if total_distance * s.fuel_consumption > s.fuel_level then none
  else some (total_distance * (1 + s.current_waste / s.waste_capacity))

/-- `HandleCFP.run` processing one received cfp (lines 160-256):
`update_malfunction_status`, the availability checks, body parsing (`none`
models a `json.loads` failure, which the `except` swallows without a reply),
the waste-capacity check, and the cost reply. -/
def TruckState.handle_cfp (s0 : TruckState) (env : Env) (sender : String)
    (body : Option ((ℤ × ℤ) × ℚ)) : TruckState × List Msg :=
  let s := s0.update_malfunction_status env
  if s.malfunctioned then (s, [mkRefuse s.jid sender "MALFUNCTIONED"])
  else if s.busy then (s, [mkRefuse s.jid sender "BUSY"])
  else
    match body with
    | none => (s, [])
    | some (binPos, waste_level) =>
      if s.current_waste + waste_level > s.waste_capacity then
        (s, [mkRefuse s.jid sender "FULL"])
      else
        match calculate_mission_cost env s binPos waste_level with
        | none => (s, [mkRefuse s.jid sender "NO_FUEL"])
        | some cost => (s, [mkPropose s.jid sender cost])

/-- `HandleAcceptance.travel_to` (lines 409-423): raises (`.error`, carrying
the unchanged state) when the fuel debit would exceed the level. -/
def TruckState.travel_to (s : TruckState) (env : Env) (dest : ℤ × ℤ) :
    Except TruckState TruckState :=
  let distance := env.get_travel_cost s.position dest
  let fuel_used := distance * s.fuel_consumption
  if fuel_used > s.fuel_level then .error s
  else .ok { s with fuel_level := s.fuel_level - fuel_used,
                    total_fuel_used := s.total_fuel_used + fuel_used,
                    position := dest }

/-- `HandleAcceptance.refuel` (lines 425-435) with `record_refuel`
(lines 71-74). -/
def TruckState.refuel (s : TruckState) (env : Env) : Except TruckState TruckState :=
  match find_nearest_fuel_station env s.position with
  | none => .error s
  | some stPos =>
    match s.travel_to env stPos with
    | .error sErr => .error sErr
    | .ok s1 =>
      let fuel_added := s1.fuel_capacity - s1.fuel_level
      .ok { s1 with fuel_level := s1.fuel_capacity,
                    refuel_count := s1.refuel_count + 1,
                    total_fuel_used := s1.total_fuel_used + fuel_added }

/-- `HandleAcceptance.return_to_depot` (lines 437-446). -/
def TruckState.return_to_depot (s : TruckState) (env : Env) :
    Except TruckState TruckState :=
  match s.travel_to env env.depotPos with
  | .error sErr => .error sErr
  | .ok s1 => .ok { s1 with current_waste := 0, depot_returns := s1.depot_returns + 1 }

/-- `HandleAcceptance.execute_collection_mission` (lines 319-407), including
its `except` (send a `TRUCK_MALFUNCTION` or `COLLECTION_FAILED` inform and
re-raise) and its `finally` (`end_service`, clear `busy`/`current_bin`).
The boolean result is `false` when the mission raised. -/
def execute_collection_mission (env : Env) (s0 : TruckState) (binPos : ℤ × ℤ)
    (waste_level : ℚ) (sender : String) (roll : Bool) (repairDur : ℚ) :
    TruckState × List Msg × Bool :=
  let sA := s0.start_service env
  let initial_position := sA.position
  let res : Except (TruckState × List Msg) (TruckState × List Msg) :=
    match sA.check_malfunction env roll repairDur with
    | (sB, true) => .error (sB, [mkInformMalf sB env sender])
    | (sB, false) =>
      let dist0 := env.get_travel_cost sB.position binPos
      let total_distance :=
        if sB.current_waste + waste_level ≥ sB.waste_capacity * sB.waste_threshold_frac
        then dist0 + env.get_travel_cost binPos env.depotPos
        else dist0
      match (if total_distance * sB.fuel_consumption > sB.fuel_level ∨
                sB.fuel_level ≤ sB.fuel_threshold
             then sB.refuel env else .ok sB) with
      | .error sErr => .error (sErr, [])
      | .ok sC =>
        match sC.travel_to env binPos with
        | .error sErr => .error (sErr, [])
        | .ok sD =>
          let sF := ({ sD with current_waste := sD.current_waste + waste_level
                     } : TruckState).record_collection
          let msgs1 := [mkInformComplete sF sender]
          match (if sF.current_waste ≥ sF.waste_capacity * sF.waste_threshold_frac
                 then sF.return_to_depot env else .ok sF) with
          | .error sErr => .error (sErr, msgs1)
          | .ok sG =>
            .ok ({ sG with total_distance :=
              sG.total_distance + calculate_distance initial_position sG.position }, msgs1)
  match res with
  | .ok (s1, msgs) =>
    let s2 := s1.end_service env
    ({ s2 with busy := false, current_bin := none }, msgs, true)
  | .error (s1, msgs) =>
    let failMsg := if s1.malfunctioned then mkInformMalf s1 env sender
                   else mkInformFailedJson s1 sender
    let s2 := s1.end_service env
    ({ s2 with busy := false, current_bin := none }, msgs ++ [failMsg], false)

/-- `HandleAcceptance.run` (lines 289-317): set `busy`/`current_bin`, parse
the body (`none` models malformed JSON), execute the mission; on any raise
send the PLAIN `COLLECTION_FAILED` inform; finally clear `busy` and
`current_bin`. -/
def handle_acceptance_run (env : Env) (s0 : TruckState) (sender : String)
    (body : Option ((ℤ × ℤ) × ℚ)) (roll : Bool) (repairDur : ℚ) :
    TruckState × List Msg :=
  let s1 := { s0 with busy := true, current_bin := some sender }
  match body with
  | none => ({ s1 with busy := false, current_bin := none }, [mkInformPlainFailed s1 sender])
  | some (binPos, waste_level) =>
    match execute_collection_mission env s1 binPos waste_level sender roll repairDur with
    | (s2, msgs, true) => ({ s2 with busy := false, current_bin := none }, msgs)
    | (s2, msgs, false) =>
      ({ s2 with busy := false, current_bin := none }, msgs ++ [mkInformPlainFailed s2 sender])

/-- `HandleRejection.run` (lines 448-466): when the body parses, clear
`current_bin` if the rejecting bin is the current one; `busy` is untouched. -/
def TruckState.handle_rejection (s : TruckState) (sender : String)
    (parsedOk : Bool) : TruckState :=
  if parsedOk then
    if s.current_bin = some sender then { s with current_bin := none } else s
  else s

/-! ## Truck transition system

The truck's three cyclic behaviors run concurrently (cooperatively
interleaved at `await` points), so the unit of atomicity is the code between
suspension points.  `acceptBegin` is `HandleAcceptance.run` up to its first
suspension (setting `busy` and `current_bin`, lines 298-299); `missionRest`
is the remainder of that handler including the mission and both cleanup
blocks.  CFP and rejection processing are single steps.  Incoming messages
are arbitrary. -/

/-- Labels for the truck agent's operations. -/
inductive TruckLabel
  | cfp (env : Env) (sender : String) (body : Option ((ℤ × ℤ) × ℚ))
  | acceptBegin (sender : String)
  | missionRest (env : Env) (sender : String) (binPos : ℤ × ℤ) (level : ℚ)
      (roll : Bool) (repairDur : ℚ)
  | acceptMalformed (sender : String)
  | reject (sender : String) (parsedOk : Bool)

/-- One truck operation (state part). -/
def truckStep : TruckLabel → TruckState → TruckState
  | .cfp env sender body, s => (s.handle_cfp env sender body).1
  | .acceptBegin sender, s => { s with busy := true, current_bin := some sender }
  | .missionRest env sender binPos level roll dur, s =>
    let s2 := (execute_collection_mission env s binPos level sender roll dur).1
    { s2 with busy := false, current_bin := none }
  | .acceptMalformed _, s => { s with busy := false, current_bin := none }
  | .reject sender ok, s => s.handle_rejection sender ok

/-- Reachability of a truck state from another by any sequence of
operations. -/
def TruckReach (s0 s : TruckState) : Prop :=
  Relation.ReflTransGen (fun a b => ∃ l, truckStep l a = b) s0 s

/-- An environment with no traffic events at a non-rush hour, depot at the
origin. -/
def envT : Env :=
  { size := 12, current_time := 10, current_day := 1, depotPos := (0, 0),
    fuelStations := [(2, 2)], activeEvents := [], totalEvents := 0,
    morningMultiplier := 3/2, eveningMultiplier := 7/5 }

/-- A truck in its start-up state (truck_agent.py lines 23-49) at the depot,
with a concrete configuration. -/
def truckInit0 : TruckState :=
  { jid := "truck1@localhost", position := (0, 0), speed := 1,
    fuel_capacity := 100, fuel_level := 100, fuel_consumption := 1,
    fuel_threshold := 20, waste_capacity := 1000, waste_threshold_frac := 7/10,
    current_waste := 0, busy := false, current_bin := none,
    malfunctioned := false, malfunction_end_time := none,
    malfunction_end_day := none, service_start_time := none,
    service_start_day := none, total_collections := 0, total_distance := 0,
    total_fuel_used := 0, refuel_count := 0, depot_returns := 0,
    total_waste_collected := 0, busy_time := 0, malfunction_count := 0 }

/-- The same truck half-loaded with waste. -/
def truckHalf : TruckState :=
  { truckInit0 with current_waste := 500 }

/-- The same truck with only 5 units of fuel. -/
def truckLowFuel : TruckState :=
  { truckInit0 with fuel_level := 5 }

/-- The truck right after `HandleAcceptance.run` recorded the acceptance from
`bin1` (busy, mid-mission at a suspension point). -/
def truckBusy1 : TruckState :=
  truckStep (.acceptBegin "bin1@localhost") truckInit0

/-- The truck after additionally processing a stale `reject-proposal` from
the very bin it is busy with. -/
def truckBad : TruckState :=
  truckStep (.reject "bin1@localhost" true) truckBusy1

/-! ## Composite system: two bins, one truck (for C5)

Agents interact only through messages; a step consumes at most one in-flight
message addressed to the acting agent and appends that agent's replies.  The
label data carry each operation's randomness. -/

/-- Global state of the composite system. -/
structure SysState where
  env : Env
  bin1 : BinState
  bin2 : BinState
  truck : TruckState
  net : List Msg
deriving DecidableEq, Repr

/-- One interleaving step of the composite system. -/
inductive SysStep : SysState → SysState → Prop
  | stepTime (st : SysState) (gen : List TrafficEvent)
      (hgen : ∀ e ∈ gen, 2 ≤ e.duration ∧ e.duration ≤ 4) :
      SysStep st { st with env := st.env.step_time gen }
  | binMonitor1 (st : SysState) (w u : ℚ) (c : ℕ)
      (h1 : st.bin1.fillRateMin ≤ u) (h2 : u ≤ st.bin1.fillRateMax) :
      SysStep st { st with
        bin1 := (st.bin1.monitor_level st.env.current_time w u c).1,
        net := st.net ++ (st.bin1.monitor_level st.env.current_time w u c).2 }
  | binMonitor2 (st : SysState) (w u : ℚ) (c : ℕ)
      (h1 : st.bin2.fillRateMin ≤ u) (h2 : u ≤ st.bin2.fillRateMax) :
      SysStep st { st with
        bin2 := (st.bin2.monitor_level st.env.current_time w u c).1,
        net := st.net ++ (st.bin2.monitor_level st.env.current_time w u c).2 }
  | binPropose1 (st : SysState) (m : Msg) (cost : ℚ) (c : ℕ)
      (hm : m ∈ st.net) (hd : m.dst = st.bin1.jid)
      (hp : m.payload = .propose cost) :
      SysStep st { st with
        bin1 := (st.bin1.handle_proposal m.src cost st.env.current_time c).1,
        net := st.net.erase m ++
          (st.bin1.handle_proposal m.src cost st.env.current_time c).2 }
  | binPropose2 (st : SysState) (m : Msg) (cost : ℚ) (c : ℕ)
      (hm : m ∈ st.net) (hd : m.dst = st.bin2.jid)
      (hp : m.payload = .propose cost) :
      SysStep st { st with
        bin2 := (st.bin2.handle_proposal m.src cost st.env.current_time c).1,
        net := st.net.erase m ++
          (st.bin2.handle_proposal m.src cost st.env.current_time c).2 }
  | binRefuse1 (st : SysState) (m : Msg) (reason : String) (c : ℕ)
      (hm : m ∈ st.net) (hd : m.dst = st.bin1.jid)
      (hp : m.payload = .refuse reason) :
      SysStep st { st with
        bin1 := (st.bin1.handle_refuse m.src st.env.current_time c).1,
        net := st.net.erase m ++ (st.bin1.handle_refuse m.src st.env.current_time c).2 }
  | binRefuse2 (st : SysState) (m : Msg) (reason : String) (c : ℕ)
      (hm : m ∈ st.net) (hd : m.dst = st.bin2.jid)
      (hp : m.payload = .refuse reason) :
      SysStep st { st with
        bin2 := (st.bin2.handle_refuse m.src st.env.current_time c).1,
        net := st.net.erase m ++ (st.bin2.handle_refuse m.src st.env.current_time c).2 }
  | binInform1 (st : SysState) (m : Msg) (b : InformBody) (w : ℚ)
      (hm : m ∈ st.net) (hd : m.dst = st.bin1.jid)
      (hp : m.payload = .inform b) :
      SysStep st { st with
        bin1 := (st.bin1.handle_inform b st.env.current_time w).1,
        net := st.net.erase m ++ (st.bin1.handle_inform b st.env.current_time w).2 }
  | binInform2 (st : SysState) (m : Msg) (b : InformBody) (w : ℚ)
      (hm : m ∈ st.net) (hd : m.dst = st.bin2.jid)
      (hp : m.payload = .inform b) :
      SysStep st { st with
        bin2 := (st.bin2.handle_inform b st.env.current_time w).1,
        net := st.net.erase m ++ (st.bin2.handle_inform b st.env.current_time w).2 }
  | truckCfp (st : SysState) (m : Msg) (pos : ℤ × ℤ) (level : ℚ) (tm : ℤ) (r : Bool)
      (hm : m ∈ st.net) (hd : m.dst = st.truck.jid)
      (hp : m.payload = .cfp pos level tm r) :
      SysStep st { st with
        truck := (st.truck.handle_cfp st.env m.src (some (pos, level))).1,
        net := st.net.erase m ++
          (st.truck.handle_cfp st.env m.src (some (pos, level))).2 }
  | truckAcceptBegin (st : SysState) (m : Msg) (pos : ℤ × ℤ) (level : ℚ) (tm : ℤ)
      (hm : m ∈ st.net) (hd : m.dst = st.truck.jid)
      (hp : m.payload = .acceptProposal pos level tm) :
      SysStep st { st with
        truck := truckStep (.acceptBegin m.src) st.truck,
        net := st.net.erase m }
  | truckMissionRest (st : SysState) (sender : String) (binPos : ℤ × ℤ) (level : ℚ)
      (roll : Bool) (dur : ℚ) :
      SysStep st { st with
        truck := truckStep (.missionRest st.env sender binPos level roll dur) st.truck,
        net := st.net ++
          (execute_collection_mission st.env st.truck binPos level sender roll dur).2.1 ++
          (if (execute_collection_mission st.env st.truck binPos level sender roll dur).2.2
           then []
           else [mkInformPlainFailed
             (execute_collection_mission st.env st.truck binPos level sender roll dur).1
             sender]) }
  | truckReject (st : SysState) (m : Msg) (reason : String) (sc yc : ℚ)
      (hm : m ∈ st.net) (hd : m.dst = st.truck.jid)
      (hp : m.payload = .rejectProposal reason sc yc) :
      SysStep st { st with
        truck := st.truck.handle_rejection m.src true,
        net := st.net.erase m }

/-- Reachability in the composite system. -/
def SysReach (s0 s : SysState) : Prop :=
  Relation.ReflTransGen SysStep s0 s

/-- First bin of the composite counterexample scenario: full, one known
truck. -/
def binS1 : BinState :=
  { binInit0 with jid := "bin1@localhost", position := (1, 0),
                  truckJids := ["truck1@localhost"], current_level := 100 }

/-- Second bin of the scenario. -/
def binS2 : BinState :=
  { binInit0 with jid := "bin2@localhost", position := (2, 0),
                  truckJids := ["truck1@localhost"], current_level := 100 }

/-- Initial composite state: both bins full, the truck idle at the depot, no
messages in flight. -/
def sysT0 : SysState :=
  { env := envT, bin1 := binS1, bin2 := binS2, truck := truckInit0, net := [] }

/-- The CFP bin1 broadcasts. -/
def msgCfp1 : Msg :=
  { dst := "truck1@localhost", src := "bin1@localhost", payload := .cfp (1, 0) 100 10 false }

/-- The CFP bin2 broadcasts. -/
def msgCfp2 : Msg :=
  { dst := "truck1@localhost", src := "bin2@localhost", payload := .cfp (2, 0) 100 10 false }

/-- The truck's proposal to bin1 (distance 1, no waste penalty). -/
def msgProp1 : Msg :=
  { dst := "bin1@localhost", src := "truck1@localhost", payload := .propose 1 }

/-- The truck's proposal to bin2 (distance 2, no waste penalty). -/
def msgProp2 : Msg :=
  { dst := "bin2@localhost", src := "truck1@localhost", payload := .propose 2 }

/-- Trace state after bin1's monitor initiates its CFP. -/
def sysT1 : SysState :=
  { sysT0 with
    bin1 := (sysT0.bin1.monitor_level sysT0.env.current_time 0 0 0).1,
    net := sysT0.net ++ (sysT0.bin1.monitor_level sysT0.env.current_time 0 0 0).2 }

/-- After bin2's monitor initiates its CFP. -/
def sysT2 : SysState :=
  { sysT1 with
    bin2 := (sysT1.bin2.monitor_level sysT1.env.current_time 0 0 0).1,
    net := sysT1.net ++ (sysT1.bin2.monitor_level sysT1.env.current_time 0 0 0).2 }

/-- After the (still free) truck answers bin1's CFP with a proposal. -/
def sysT3 : SysState :=
  { sysT2 with
    truck := (sysT2.truck.handle_cfp sysT2.env msgCfp1.src (some ((1, 0), 100))).1,
    net := sysT2.net.erase msgCfp1 ++
      (sysT2.truck.handle_cfp sysT2.env msgCfp1.src (some ((1, 0), 100))).2 }

/-- After the (still free) truck also answers bin2's CFP with a proposal. -/
def sysT4 : SysState :=
  { sysT3 with
    truck := (sysT3.truck.handle_cfp sysT3.env msgCfp2.src (some ((2, 0), 100))).1,
    net := sysT3.net.erase msgCfp2 ++
      (sysT3.truck.handle_cfp sysT3.env msgCfp2.src (some ((2, 0), 100))).2 }

/-- After bin1 records the proposal and selects the truck. -/
def sysT5 : SysState :=
  { sysT4 with
    bin1 := (sysT4.bin1.handle_proposal msgProp1.src 1 sysT4.env.current_time 0).1,
    net := sysT4.net.erase msgProp1 ++
      (sysT4.bin1.handle_proposal msgProp1.src 1 sysT4.env.current_time 0).2 }

/-- After bin2 also records the proposal and selects the same truck. -/
def sysT6 : SysState :=
  { sysT5 with
    bin2 := (sysT5.bin2.handle_proposal msgProp2.src 2 sysT5.env.current_time 0).1,
    net := sysT5.net.erase msgProp2 ++
      (sysT5.bin2.handle_proposal msgProp2.src 2 sysT5.env.current_time 0).2 }

/-! ## Theorems -/

/-! ### Helper lemmas about the bin operations -/

theorem select_best_proposal_cases (s : BinState) (t : ℤ) (c : ℕ) :
    (s.select_best_proposal t c).1 = s.reset_collection_state ∨
    ∃ w, (s.select_best_proposal t c).1 =
      { s with selected_truck := some w,
               total_mission_costs := s.total_mission_costs + minRoundedCost s.proposals } := by
  simp only [BinState.select_best_proposal]
  split
  · exact Or.inl rfl
  · exact Or.inr ⟨_, rfl⟩

theorem invC2_reset (s : BinState) : InvC2 s.reset_collection_state :=
  fun _ => ⟨rfl, rfl⟩

theorem invC2_select_of_waiting (s : BinState) (t : ℤ) (c : ℕ)
    (h : s.waiting_for_collection = true) : InvC2 (s.select_best_proposal t c).1 := by
  rcases select_best_proposal_cases s t c with hc | ⟨w, hc⟩
  · rw [hc]; exact invC2_reset s
  · rw [hc]
    intro hf
    dsimp only at hf
    rw [h] at hf
    cases hf

theorem invC2_select_of (s : BinState) (t : ℤ) (c : ℕ)
    (hs : InvC2 s) : InvC2 (s.select_best_proposal t c).1 := by
  by_cases hw : s.waiting_for_collection = true
  · exact invC2_select_of_waiting s t c hw
  · obtain ⟨hp, _⟩ := hs (by simpa using hw)
    simp only [BinState.select_best_proposal, hp, true_or, if_pos]
    exact invC2_reset s

theorem record_waste_fields (s : BinState) (a : ℚ) :
    (s.record_waste_generation a).current_level = s.current_level ∧
    (s.record_waste_generation a).capacity = s.capacity ∧
    (s.record_waste_generation a).threshold = s.threshold ∧
    (s.record_waste_generation a).waiting_for_collection = s.waiting_for_collection ∧
    (s.record_waste_generation a).proposals = s.proposals ∧
    (s.record_waste_generation a).selected_truck = s.selected_truck ∧
    (s.record_waste_generation a).trucks_responded = s.trucks_responded ∧
    (s.record_waste_generation a).total_waste_generated = s.total_waste_generated + a ∧
    (s.record_waste_generation a).overflow_incidents =
      (if s.capacity ≤ s.current_level then s.overflow_incidents + 1
       else s.overflow_incidents) := by
  simp only [BinState.record_waste_generation]
  split_ifs with h <;> simp_all

/-- Characterization of `fill_update`: the level is raised by the
(night-halved) drawn increment and capped at capacity, the increment is
recorded as waste generated, the overflow counter is incremented exactly when
the new level reaches capacity, and every negotiation field is untouched. -/
theorem fill_update_chars (s : BinState) (t : ℤ) (u : ℚ) :
    (s.fill_update t u).current_level = min (s.current_level + fillAmount t u) s.capacity ∧
    (s.fill_update t u).capacity = s.capacity ∧
    (s.fill_update t u).threshold = s.threshold ∧
    (s.fill_update t u).waiting_for_collection = s.waiting_for_collection ∧
    (s.fill_update t u).proposals = s.proposals ∧
    (s.fill_update t u).selected_truck = s.selected_truck ∧
    (s.fill_update t u).trucks_responded = s.trucks_responded ∧
    (s.fill_update t u).total_waste_generated = s.total_waste_generated + fillAmount t u ∧
    (s.fill_update t u).overflow_incidents =
      (if s.capacity ≤ s.current_level + fillAmount t u then s.overflow_incidents + 1
       else s.overflow_incidents) := by
  rcases lt_or_le s.capacity (s.current_level + fillAmount t u) with h | h
  · have hgt : s.current_level + fillAmount t u > s.capacity := h
    simp only [BinState.fill_update, BinState.record_waste_generation, if_pos hgt]
    rw [if_pos le_rfl]
    exact ⟨(min_eq_right (le_of_lt h)).symm, rfl, rfl, rfl, rfl, rfl, rfl, rfl,
      by rw [if_pos (le_of_lt h)]⟩
  · have hng : ¬ (s.current_level + fillAmount t u > s.capacity) := not_lt.mpr h
    simp only [BinState.fill_update, BinState.record_waste_generation, if_neg hng]
    by_cases h2 : s.capacity ≤ s.current_level + fillAmount t u
    · rw [if_pos h2]
      exact ⟨(min_eq_left h).symm, rfl, rfl, rfl, rfl, rfl, rfl, rfl, by rw [if_pos h2]⟩
    · rw [if_neg h2]
      exact ⟨(min_eq_left h).symm, rfl, rfl, rfl, rfl, rfl, rfl, rfl, by rw [if_neg h2]⟩

/-- Characterization of the fill path of `MonitorLevel.run` when the bin is
not awaiting collection: the state is `fill_update` possibly followed by a
CFP initiation, which touches only the negotiation fields and sets
`waiting_for_collection`. -/
theorem monitor_fill_chars (s : BinState) (t : ℤ) (w u : ℚ) (c : ℕ)
    (hw : s.waiting_for_collection = false) :
    (s.monitor_level t w u c).1.current_level = (s.fill_update t u).current_level ∧
    (s.monitor_level t w u c).1.total_waste_generated =
      (s.fill_update t u).total_waste_generated ∧
    (s.monitor_level t w u c).1.overflow_incidents =
      (s.fill_update t u).overflow_incidents ∧
    (s.monitor_level t w u c).1.capacity = s.capacity ∧
    ((s.monitor_level t w u c).1.waiting_for_collection = false →
      (s.monitor_level t w u c).1.proposals = s.proposals ∧
      (s.monitor_level t w u c).1.selected_truck = s.selected_truck) := by
  obtain ⟨f1, f2, f3, f4, f5, f6, f7, f8, f9⟩ := fill_update_chars s t u
  simp only [BinState.monitor_level, hw, Bool.false_eq_true, if_false]
  split
  · exact ⟨rfl, rfl, rfl, f2, fun hf => by cases hf⟩
  · exact ⟨rfl, rfl, rfl, f2, fun _ => ⟨f5, f6⟩⟩

/-! ### C2 -/

/-- C2 counterexample: the claimed invariant
`awaitingCollection = false ⇒ proposals empty ∧ selectedTruck = None` holds in
the bin's initial state, yet processing a single late `propose` message while
`awaitingCollection` is false (the negotiation state is reset) records the
proposal — `handle_proposal` never checks `waiting_for_collection` — reaching
a state where `awaitingCollection` is false and the proposals map is
non-empty. -/
theorem C2_counterexample :
    InvC2 binInit0 ∧
    BinReach binInit0 (binStep (.propose "truck1@localhost" 3 0 0) binInit0).1 ∧
    ¬ InvC2 (binStep (.propose "truck1@localhost" 3 0 0) binInit0).1 := by
  refine ⟨fun _ => ⟨rfl, rfl⟩, Relation.ReflTransGen.single ⟨_, rfl⟩, fun hInv => ?_⟩
  obtain ⟨hp, -⟩ := hInv (by with_unfolding_all decide)
  exact absurd hp (by with_unfolding_all decide)

/-- C2 (amended): `awaitingCollection = false ⇒ proposals empty ∧
selectedTruck = None` is established by every reset and preserved by every
bin operation EXCEPT processing a `propose` message: `handle_proposal`
records a late proposal (and may even trigger a selection) without checking
`awaitingCollection`, so the implication survives exactly the runs in which
no propose message is processed while `awaitingCollection` is false. -/
theorem C2_invariant_preserved_except_propose (l : BinLabel) (s : BinState)
    (hl : ∀ sender cost t c, l ≠ BinLabel.propose sender cost t c)
    (hs : InvC2 s) : InvC2 (binStep l s).1 := by
  cases l with
  | propose sender cost t c => exact absurd rfl (hl sender cost t c)
  | monitor t w u c =>
    by_cases hw : s.waiting_for_collection = true
    · simp only [binStep, BinState.monitor_level, if_pos hw]
      cases hts : s.cfp_start_time with
      | none => exact hs
      | some t0 =>
        dsimp only
        by_cases htm : w - t0 ≥ s.proposal_timeout
        · rw [if_pos htm]
          by_cases hp : s.proposals = []
          · rw [if_pos hp]
            exact invC2_reset s
          · rw [if_neg hp]
            exact invC2_select_of_waiting s t c hw
        · rw [if_neg htm]
          exact hs
    · have hwf : s.waiting_for_collection = false := by simpa using hw
      obtain ⟨-, -, -, -, hpres⟩ := monitor_fill_chars s t w u c hwf
      simp only [binStep]
      intro hf
      obtain ⟨hp, hsel⟩ := hpres hf
      obtain ⟨hp0, hsel0⟩ := hs hwf
      rw [hp, hsel]
      exact ⟨hp0, hsel0⟩
  | refuse sender t c =>
    have h1 : InvC2 { s with
        proposals := s.proposals.filter (fun p => p.1 ≠ sender),
        trucks_responded := setAdd s.trucks_responded sender } := by
      intro hf
      obtain ⟨hp, hsel⟩ := hs hf
      simp [hp, hsel]
    simp only [binStep, BinState.handle_refuse]
    split
    · exact invC2_select_of _ t c h1
    · exact h1
  | inform b t w =>
    cases b with
    | raw text => exact hs
    | jsonNoStatus => exact hs
    | jsonStatus status rt =>
      simp only [binStep, BinState.handle_inform]
      split_ifs with hTM hCC
      · cases rt with
        | none => exact hs
        | some r =>
          intro hf
          dsimp only [BinState.initiate_new_cfp, BinState.reset_collection_state] at hf ⊢
          cases hf
      · exact invC2_reset _
      · exact hs

/-! ### C7 -/

theorem invC7_reset (s : BinState) : InvC7 s.reset_collection_state := by
  intro k hk
  simp [BinState.reset_collection_state] at hk

theorem invC7_select (s : BinState) (t : ℤ) (c : ℕ) (hs : InvC7 s) :
    InvC7 (s.select_best_proposal t c).1 := by
  rcases select_best_proposal_cases s t c with hc | ⟨w, hc⟩
  · rw [hc]
    exact invC7_reset s
  · rw [hc]
    exact hs

theorem dictInsert_keys_subset (m : List (String × ℚ)) (k : String) (v : ℚ) :
    ∀ x ∈ (dictInsert m k v).map Prod.fst, x ∈ m.map Prod.fst ∨ x = k := by
  intro x hx
  simp only [dictInsert] at hx
  split at hx
  · rcases List.mem_map.mp hx with ⟨p, hp, rfl⟩
    rcases List.mem_map.mp hp with ⟨q, hq, rfl⟩
    by_cases hqk : q.1 = k
    · right
      simp [hqk]
    · left
      simp only [if_neg hqk]
      exact List.mem_map_of_mem _ hq
  · rcases List.mem_map.mp hx with ⟨p, hp, rfl⟩
    rcases List.mem_append.mp hp with h | h
    · exact Or.inl (List.mem_map_of_mem _ h)
    · right
      simp only [List.mem_singleton] at h
      simp [h]

theorem mem_setAdd (l : List String) (x y : String) :
    y ∈ setAdd l x ↔ y ∈ l ∨ y = x := by
  by_cases hxl : x ∈ l
  · rw [setAdd, if_pos hxl]
    constructor
    · exact Or.inl
    · rintro (h | rfl)
      · exact h
      · exact hxl
  · rw [setAdd, if_neg hxl]
    simp

/-- C7: the key set of the bin's proposals map is always a subset of
`trucks_responded`: every bin operation (recording a proposal, recording a
refusal, the periodic monitor with its resets and CFP initiations, and every
inform handler) preserves the inclusion, and it therefore holds in every
state reachable from a state satisfying it — in particular from the initial
state, where both collections are empty. -/
theorem C7_proposals_keys_subset_responded :
    (∀ l s, InvC7 s → InvC7 (binStep l s).1) ∧
    (∀ s0 s, InvC7 s0 → BinReach s0 s → InvC7 s) := by
  have step : ∀ l s, InvC7 s → InvC7 (binStep l s).1 := by
    intro l s hs
    cases l with
    | monitor t w u c =>
      by_cases hw : s.waiting_for_collection = true
      · simp only [binStep, BinState.monitor_level, if_pos hw]
        cases hts : s.cfp_start_time with
        | none => exact hs
        | some t0 =>
          dsimp only
          by_cases htm : w - t0 ≥ s.proposal_timeout
          · rw [if_pos htm]
            by_cases hp : s.proposals = []
            · rw [if_pos hp]
              exact invC7_reset s
            · rw [if_neg hp]
              exact invC7_select s t c hs
          · rw [if_neg htm]
            exact hs
      · have hwf : s.waiting_for_collection = false := by simpa using hw
        simp only [binStep, BinState.monitor_level, hwf, Bool.false_eq_true, if_false]
        split
        · intro k hk
          simp [BinState.initiate_cfp] at hk
        · obtain ⟨-, -, -, -, f5, -, f7, -, -⟩ := fill_update_chars s t u
          intro k hk
          rw [f5] at hk
          rw [f7]
          exact hs k hk
    | propose sender cost t c =>
      have h1 : InvC7 { s with proposals := dictInsert s.proposals sender cost,
                               trucks_responded := setAdd s.trucks_responded sender } := by
        intro k hk
        rcases dictInsert_keys_subset s.proposals sender cost k hk with h | rfl
        · exact (mem_setAdd _ _ _).mpr (Or.inl (hs k h))
        · exact (mem_setAdd _ _ _).mpr (Or.inr rfl)
      simp only [binStep, BinState.handle_proposal]
      split
      · split
        · exact invC7_select _ t c h1
        · exact h1
      · exact hs
    | refuse sender t c =>
      have h1 : InvC7 { s with
          proposals := s.proposals.filter (fun p => p.1 ≠ sender),
          trucks_responded := setAdd s.trucks_responded sender } := by
        intro k hk
        rcases List.mem_map.mp hk with ⟨p, hp, rfl⟩
        have hmem := List.mem_of_mem_filter hp
        exact (mem_setAdd _ _ _).mpr (Or.inl (hs p.1 (List.mem_map_of_mem _ hmem)))
      simp only [binStep, BinState.handle_refuse]
      split
      · exact invC7_select _ t c h1
      · exact h1
    | inform b t w =>
      cases b with
      | raw text => exact hs
      | jsonNoStatus => exact hs
      | jsonStatus status rt =>
        simp only [binStep, BinState.handle_inform]
        split_ifs with hTM hCC
        · cases rt with
          | none => exact hs
          | some r =>
            intro k hk
            simp [BinState.initiate_new_cfp, BinState.reset_collection_state] at hk
        · intro k hk
          simp [BinState.reset_collection_state, BinState.record_collection] at hk
        · exact hs
  refine ⟨step, fun s0 s h0 hreach => ?_⟩
  induction hreach with
  | refl => exact h0
  | tail hab hbc ih =>
    rcases hbc with ⟨l, hl⟩
    rw [← hl]
    exact step l _ ih

/-- Closed instantiation of C7: after a late second proposal triggers a
selection, the proposer is indeed among the responded trucks. -/
theorem C7_witness :
    "truck2@localhost" ∈
      (binStep (.propose "truck2@localhost" 5 0 0) binAwait1).1.trucks_responded :=
  C7_proposals_keys_subset_responded.1 (.propose "truck2@localhost" 5 0 0) binAwait1
    (by with_unfolding_all decide) "truck2@localhost" (by with_unfolding_all decide)

/-- Closed instantiation of the amended C2 theorem: after the bin processes a
`COLLECTION_COMPLETE` inform (which resets the negotiation state, leaving
`awaitingCollection` false), the proposals map is empty and no truck is
selected. -/
theorem C2_amended_witness :
    (binStep (.inform (.jsonStatus "COLLECTION_COMPLETE" none) 0 0) binAwait1).1.proposals
      = [] ∧
    (binStep (.inform (.jsonStatus "COLLECTION_COMPLETE" none) 0 0)
      binAwait1).1.selected_truck = none :=
  C2_invariant_preserved_except_propose
    (.inform (.jsonStatus "COLLECTION_COMPLETE" none) 0 0) binAwait1
    (by intro sender cost t c h; cases h)
    (fun h => absurd h (by with_unfolding_all decide))
    (by with_unfolding_all decide)

/-! ### C9 -/

/-- C9: each periodic fill update of a bin that is not awaiting collection
draws `u` uniformly from the configured fill-rate range, multiplies it by
`0.5` when the hour lies in `0–6` (else `1`), adds the resulting increment to
the level capping at capacity, records the increment as waste generated, and
increments the overflow counter exactly when the (updated) level sits at
capacity. -/
theorem C9_fill_update_behaviour (s : BinState) (t : ℤ) (w u : ℚ) (c : ℕ)
    (hw : s.waiting_for_collection = false)
    (hlo : s.fillRateMin ≤ u) (hhi : u ≤ s.fillRateMax) :
    fillAmount t u = u * (if 0 ≤ t ∧ t ≤ 6 then (1/2 : ℚ) else 1) ∧
    (s.monitor_level t w u c).1.current_level =
      min (s.current_level + fillAmount t u) s.capacity ∧
    (s.monitor_level t w u c).1.total_waste_generated =
      s.total_waste_generated + fillAmount t u ∧
    (s.monitor_level t w u c).1.overflow_incidents =
      (if s.capacity ≤ s.current_level + fillAmount t u then s.overflow_incidents + 1
       else s.overflow_incidents) ∧
    ((s.monitor_level t w u c).1.overflow_incidents = s.overflow_incidents + 1 ↔
      (s.monitor_level t w u c).1.current_level = s.capacity) := by
  obtain ⟨m1, m2, m3, -, -⟩ := monitor_fill_chars s t w u c hw
  obtain ⟨f1, -, -, -, -, -, -, f8, f9⟩ := fill_update_chars s t u
  have hlvl : (s.monitor_level t w u c).1.current_level =
      min (s.current_level + fillAmount t u) s.capacity := by rw [m1, f1]
  have hovf : (s.monitor_level t w u c).1.overflow_incidents =
      (if s.capacity ≤ s.current_level + fillAmount t u then s.overflow_incidents + 1
       else s.overflow_incidents) := by rw [m3, f9]
  refine ⟨rfl, hlvl, by rw [m2, f8], hovf, ?_⟩
  by_cases hcap : s.capacity ≤ s.current_level + fillAmount t u
  · rw [hovf, if_pos hcap, hlvl, min_eq_right hcap]
    simp
  · rw [hovf, if_neg hcap, hlvl, min_eq_left (le_of_not_le hcap)]
    constructor
    · intro h
      exact absurd h (by omega)
    · intro h
      exact absurd h (ne_of_lt (lt_of_not_le hcap))

/-- Closed instantiation of C9: a bin at level 95 of 100 filled by 10 during
a night hour gains 5, caps at 100, and logs one overflow incident. -/
theorem C9_witness :
    (binInit95.monitor_level 3 0 10 0).1.current_level =
      min (binInit95.current_level + fillAmount 3 10) binInit95.capacity ∧
    (binInit95.monitor_level 3 0 10 0).1.overflow_incidents =
      binInit95.overflow_incidents + 1 :=
  have h := C9_fill_update_behaviour binInit95 3 0 10 0 (by with_unfolding_all decide)
    (by with_unfolding_all decide) (by with_unfolding_all decide)
  ⟨h.2.1, by rw [h.2.2.2.1]; with_unfolding_all decide⟩

/-! ### C10 -/

/-- C10: when a bin receives an `inform` whose body is not valid JSON, or is
JSON without a status, or carries any status other than `TRUCK_MALFUNCTION`
and `COLLECTION_COMPLETE` (in particular `COLLECTION_FAILED`), its entire
state is unchanged and no message is sent, so a failed mission is not retried
until the bin's own proposal timeout later resets the negotiation state. -/
theorem C10_handle_inform_frame (s : BinState) (t : ℤ) (w : ℚ)
    (text : String) (status : String) (rt : Option ℚ)
    (h1 : status ≠ "TRUCK_MALFUNCTION") (h2 : status ≠ "COLLECTION_COMPLETE") :
    s.handle_inform (.raw text) t w = (s, []) ∧
    s.handle_inform .jsonNoStatus t w = (s, []) ∧
    s.handle_inform (.jsonStatus status rt) t w = (s, []) := by
  refine ⟨rfl, rfl, ?_⟩
  simp [BinState.handle_inform, h1, h2]

/-- Closed instantiation of C10 at the `COLLECTION_FAILED` status. -/
theorem C10_witness :
    binAwait1.handle_inform (.jsonStatus "COLLECTION_FAILED" none) 0 0 = (binAwait1, []) :=
  (C10_handle_inform_frame binAwait1 0 0 "COLLECTION_FAILED" "COLLECTION_FAILED" none
    (by decide) (by decide)).2.2

/-! ### C1 -/

theorem foldl_min_mem (cs : List ℚ) (c : ℚ) : cs.foldl min c ∈ c :: cs := by
  induction cs generalizing c with
  | nil => simp
  | cons x xs ih =>
    simp only [List.foldl_cons]
    have h := ih (min c x)
    rcases List.mem_cons.mp h with h1 | h1
    · rcases min_choice c x with hc | hc
      · rw [h1, hc]
        exact List.mem_cons_self _ _
      · rw [h1, hc]
        exact List.mem_cons_of_mem _ (List.mem_cons_self _ _)
    · exact List.mem_cons_of_mem _ (List.mem_cons_of_mem _ h1)

theorem foldl_min_le (cs : List ℚ) (c : ℚ) : ∀ x ∈ c :: cs, cs.foldl min c ≤ x := by
  induction cs generalizing c with
  | nil =>
    intro x hx
    simp only [List.mem_singleton] at hx
    simp [hx]
  | cons y ys ih =>
    intro x hx
    simp only [List.foldl_cons]
    have hmin : ys.foldl min (min c y) ≤ min c y :=
      ih (min c y) _ (List.mem_cons_self _ _)
    rcases List.mem_cons.mp hx with h1 | hx1
    · rw [h1]
      exact le_trans hmin (min_le_left _ _)
    · rcases List.mem_cons.mp hx1 with h2 | hx2
      · rw [h2]
        exact le_trans hmin (min_le_right _ _)
      · exact ih (min c y) x (List.mem_cons_of_mem _ hx2)

theorem minRoundedCost_mem (ps : List (String × ℚ)) (h : ps ≠ []) :
    minRoundedCost ps ∈ ps.map (fun p => round2 p.2) := by
  cases ps with
  | nil => cases h rfl
  | cons p rest =>
    simp only [minRoundedCost, List.map_cons]
    exact foldl_min_mem _ _

theorem minRoundedCost_le (ps : List (String × ℚ)) :
    ∀ p ∈ ps, minRoundedCost ps ≤ round2 p.2 := by
  cases ps with
  | nil =>
    intro p hp
    cases hp
  | cons q rest =>
    intro p hp
    simp only [minRoundedCost, List.map_cons]
    apply foldl_min_le
    rcases List.mem_cons.mp hp with rfl | h
    · exact List.mem_cons_self _ _
    · exact List.mem_cons_of_mem _ (List.mem_map_of_mem _ h)

theorem tieGroup_mem_iff (ps : List (String × ℚ)) (tr : String) :
    tr ∈ tieGroup ps ↔ ∃ cst, (tr, cst) ∈ ps ∧ round2 cst = minRoundedCost ps := by
  simp only [tieGroup, List.mem_map, List.mem_filter, decide_eq_true_eq]
  constructor
  · rintro ⟨p, ⟨hp, he⟩, rfl⟩
    exact ⟨p.2, by simpa using hp, he⟩
  · rintro ⟨cst, hmem, he⟩
    exact ⟨(tr, cst), ⟨hmem, he⟩, rfl⟩

theorem tieGroup_ne_nil (ps : List (String × ℚ)) (h : ps ≠ []) : tieGroup ps ≠ [] := by
  have hmem := minRoundedCost_mem ps h
  rcases List.mem_map.mp hmem with ⟨p, hp, hpe⟩
  intro hnil
  have hin : p.1 ∈ tieGroup ps :=
    (tieGroup_mem_iff ps p.1).mpr ⟨p.2, by simpa using hp, hpe⟩
  rw [hnil] at hin
  cases hin

theorem tieGroup_nodup (ps : List (String × ℚ)) (hnd : (ps.map Prod.fst).Nodup) :
    (tieGroup ps).Nodup := by
  have hsub : List.Sublist
      ((ps.filter (fun p => decide (round2 p.2 = minRoundedCost ps))).map Prod.fst)
      (ps.map Prod.fst) := List.Sublist.map Prod.fst (List.filter_sublist ps)
  exact hnd.sublist hsub

theorem map_fst_filter_pred (ps : List (String × ℚ)) (q : String → Bool) :
    (ps.filter (fun p => q p.1)).map Prod.fst = (ps.map Prod.fst).filter q := by
  induction ps with
  | nil => rfl
  | cons p rest ih =>
    simp only [List.filter_cons, List.map_cons]
    cases hq : q p.1 <;> simp [hq, ih]

/-- C1: for a non-empty proposal map with no truck selected yet (and distinct
proposers, as Python dict keys are), `select_best_proposal` groups the costs
by their 2-decimal rounding; the tie group is exactly the set of proposers
whose rounded cost is the minimum rounded cost, contains no duplicates and is
non-empty, and the `i`-th choice index selects its `i`-th member — so a
uniformly random index yields a uniformly random member of the tie group.
The selection sends one `reject-proposal` to every other proposing truck
followed (afterwards) by one `accept-proposal` to the winner, and adds the
minimum rounded cost to the running mission-cost total. -/
theorem C1_selection (s : BinState) (envTime : ℤ)
    (hne : s.proposals ≠ []) (hsel : s.selected_truck = none)
    (hnd : (s.proposals.map Prod.fst).Nodup) :
    ((tieGroup s.proposals).Nodup ∧ tieGroup s.proposals ≠ [] ∧
      (∀ tr, tr ∈ tieGroup s.proposals ↔
        ∃ cst, (tr, cst) ∈ s.proposals ∧ round2 cst = minRoundedCost s.proposals) ∧
      (∀ p ∈ s.proposals, minRoundedCost s.proposals ≤ round2 p.2)) ∧
    (∀ i : ℕ, i < (tieGroup s.proposals).length →
      (s.select_best_proposal envTime i).1.selected_truck =
        some ((tieGroup s.proposals).getD i "") ∧
      (s.select_best_proposal envTime i).1.total_mission_costs =
        s.total_mission_costs + minRoundedCost s.proposals ∧
      (s.select_best_proposal envTime i).2 =
        sendRejections s ((tieGroup s.proposals).getD i "") (minRoundedCost s.proposals) ++
          [sendAcceptance s ((tieGroup s.proposals).getD i "") envTime] ∧
      (s.select_best_proposal envTime i).2.map Msg.dst =
        (s.proposals.map Prod.fst).filter (fun x => x ≠ (tieGroup s.proposals).getD i "") ++
          [(tieGroup s.proposals).getD i ""]) := by
  have hg : ¬ (s.proposals = [] ∨ s.selected_truck ≠ none) := by
    rintro (h | h)
    · exact hne h
    · exact h hsel
  refine ⟨⟨tieGroup_nodup _ hnd, tieGroup_ne_nil _ hne, tieGroup_mem_iff _,
    minRoundedCost_le _⟩, ?_⟩
  intro i hi
  have hmod : i % (tieGroup s.proposals).length = i := Nat.mod_eq_of_lt hi
  simp only [BinState.select_best_proposal, if_neg hg, hmod]
  refine ⟨trivial, trivial, trivial, ?_⟩
  simp only [sendRejections, sendAcceptance, List.map_append, List.map_map, List.map_cons,
    List.map_nil]
  rw [show Msg.dst ∘ (fun p : String × ℚ =>
      ({ dst := p.1, src := s.jid,
         payload := .rejectProposal "better_proposal_selected"
           (minRoundedCost s.proposals) p.2 } : Msg)) = Prod.fst from rfl]
  exact congrArg (fun l => l ++ [(tieGroup s.proposals).getD i ""])
    (map_fst_filter_pred s.proposals
      (fun x => decide (x ≠ (tieGroup s.proposals).getD i "")))

/-- Closed instantiation of C1 at the spec's worked example
`{A: 3.0, B: 2.995, C: 3.0}`: all three rounded costs tie at `3.00` (2.995
rounds up to 3.00), so the tie group is `[A, B, C]`; choice indices 0, 1, 2
pick A, B, C respectively, and the mission-cost total grows by 3. -/
theorem C1_witness :
    tieGroup binABC.proposals = ["A", "B", "C"] ∧
    minRoundedCost binABC.proposals = 3 ∧
    (binABC.select_best_proposal 0 0).1.selected_truck = some "A" ∧
    (binABC.select_best_proposal 0 1).1.selected_truck = some "B" ∧
    (binABC.select_best_proposal 0 2).1.selected_truck = some "C" ∧
    (binABC.select_best_proposal 0 1).1.total_mission_costs =
      binABC.total_mission_costs + 3 := by
  have hgrp : tieGroup binABC.proposals = ["A", "B", "C"] := by with_unfolding_all decide
  have hmin : minRoundedCost binABC.proposals = 3 := by with_unfolding_all decide
  have h := C1_selection binABC 0 (by with_unfolding_all decide) rfl
    (by with_unfolding_all decide)
  have hlen : (tieGroup binABC.proposals).length = 3 := by rw [hgrp]; rfl
  refine ⟨hgrp, hmin, ?_, ?_, ?_, ?_⟩
  · have := (h.2 0 (by rw [hlen]; decide)).1
    rwa [hgrp] at this
  · have := (h.2 1 (by rw [hlen]; decide)).1
    rwa [hgrp] at this
  · have := (h.2 2 (by rw [hlen]; decide)).1
    rwa [hgrp] at this
  · have := (h.2 1 (by rw [hlen]; decide)).2.1
    rwa [hmin] at this

/-- C3 counterexample: the claim states that after every `stepHour` call every
event remaining in the active set has duration strictly greater than 0 and no
event with duration 0 survives the tick or affects travel cost afterward.  In
the source the active list is filtered on `duration > 0` BEFORE the decrement,
so from a state holding one event of duration 1 the tick leaves that event in
the active set with duration 0, and it still multiplies travel cost. -/
theorem C3_counterexample :
    ¬ (∀ ev ∈ (envC3.step_time []).activeEvents, 0 < ev.duration) ∧
    (envC3.step_time []).check_traffic_event (5, 5) = 2 ∧
    (envC3.step_time []).get_travel_cost (5, 5) (5, 6) = 2 := by
  refine ⟨?_, ?_, ?_⟩ <;> with_unfolding_all decide

/-- C3 (amended): each `stepHour` tick first removes the events whose duration
is ≤ 0 and only then decrements every surviving event's duration by 1 (newly
generated events are appended unchanged); consequently after every `stepHour`
call every remaining event has duration ≥ 0, an event entering the tick with
positive duration survives it with its duration decremented (in particular an
event of duration 1 stays active at duration 0 until the next tick). -/
theorem C3_step_time_purges_before_decrement (env : Env) (gen : List TrafficEvent)
    (hgen : ∀ ev ∈ gen, 0 < ev.duration) :
    (∀ ev ∈ (env.step_time gen).activeEvents, 0 ≤ ev.duration) ∧
    (∀ ev ∈ env.activeEvents, 0 < ev.duration →
      decrementEvent ev ∈ (env.step_time gen).activeEvents) := by
  have hdec : ∀ {ev : TrafficEvent},
      ev ∈ (env.activeEvents.filter (fun e => decide (0 < e.duration))).map decrementEvent →
      0 ≤ ev.duration := by
    intro ev h
    rcases List.mem_map.mp h with ⟨e0, he0, rfl⟩
    have := (List.mem_filter.mp he0).2
    simp only [decide_eq_true_eq] at this
    simp only [decrementEvent]
    omega
  constructor
  · intro ev hev
    simp only [Env.step_time] at hev
    split at hev <;> split at hev <;> dsimp only at hev <;>
      first
        | exact hdec hev
        | (rcases List.mem_append.mp hev with h | h
           · exact hdec h
           · exact le_of_lt (hgen ev h))
  · intro ev hev hpos
    have hmem : decrementEvent ev ∈
        (env.activeEvents.filter (fun e => decide (0 < e.duration))).map decrementEvent :=
      List.mem_map_of_mem _ (List.mem_filter.mpr ⟨hev, by simpa using hpos⟩)
    simp only [Env.step_time]
    split <;> split <;> dsimp only <;>
      first
        | exact hmem
        | exact List.mem_append.mpr (Or.inl hmem)

/-- Closed instantiation of the amended C3 theorem at a concrete environment. -/
theorem C3_amended_witness :
    decrementEvent ⟨(5, 5), 1, 2⟩ ∈ (envC3.step_time []).activeEvents :=
  (C3_step_time_purges_before_decrement envC3 [] (by simp)).2 ⟨(5, 5), 1, 2⟩
    (by simp [envC3]) (by decide)

/-! ### Truck helper lemmas -/

theorem update_malf_fields (s : TruckState) (env : Env) :
    (s.update_malfunction_status env).busy = s.busy ∧
    (s.update_malfunction_status env).current_bin = s.current_bin ∧
    (s.update_malfunction_status env).jid = s.jid := by
  unfold TruckState.update_malfunction_status
  split
  · split <;> first
      | exact ⟨rfl, rfl, rfl⟩
      | (split <;> exact ⟨rfl, rfl, rfl⟩)
  · exact ⟨rfl, rfl, rfl⟩

theorem update_malfunction_of_not (s : TruckState) (env : Env)
    (h : s.malfunctioned = false) : s.update_malfunction_status env = s := by
  simp [TruckState.update_malfunction_status, h]

theorem handle_cfp_busy_bin (s : TruckState) (env : Env) (sender : String)
    (body : Option ((ℤ × ℤ) × ℚ)) :
    (s.handle_cfp env sender body).1.busy = s.busy ∧
    (s.handle_cfp env sender body).1.current_bin = s.current_bin := by
  obtain ⟨hb, hc, -⟩ := update_malf_fields s env
  cases body with
  | none =>
    simp only [TruckState.handle_cfp]
    split
    · exact ⟨hb, hc⟩
    · split
      · exact ⟨hb, hc⟩
      · exact ⟨hb, hc⟩
  | some p =>
    obtain ⟨bp, lvl⟩ := p
    simp only [TruckState.handle_cfp]
    split
    · exact ⟨hb, hc⟩
    · split
      · exact ⟨hb, hc⟩
      · split
        · exact ⟨hb, hc⟩
        · split
          · exact ⟨hb, hc⟩
          · exact ⟨hb, hc⟩

/-! ### C4 -/

/-- C4 counterexample: from the initial truck state, processing an
accept-proposal from `bin1` (the atomic prefix of `HandleAcceptance.run`,
which sets `busy` and `current_bin` before the mission's first suspension
point) and then a stale `reject-proposal` from that same bin — delivered to
the concurrently running `HandleRejection` behavior — reaches a state where
`busy` is true and `currentBin` is `None`: the claimed implication fails, and
in particular its clause that the rejection handler never falsifies it. -/
theorem C4_counterexample :
    TruckReach truckInit0 truckBad ∧
    truckBad.busy = true ∧ truckBad.current_bin = none := by
  refine ⟨?_, by with_unfolding_all decide, by with_unfolding_all decide⟩
  exact Relation.ReflTransGen.tail
    (Relation.ReflTransGen.single ⟨.acceptBegin "bin1@localhost", rfl⟩)
    ⟨.reject "bin1@localhost" true, rfl⟩

/-- C4 (amended): `busy = true ⇒ currentBin ≠ None` is preserved by every
truck operation EXCEPT processing a parsed `reject-proposal` from the very
bin recorded in `currentBin` while busy — that clears `currentBin` and leaves
`busy` true, falsifying the implication until the mission cleanup resets
`busy`. -/
theorem C4_invariant_preserved_except_reject_current (l : TruckLabel) (s : TruckState)
    (hl : ∀ sender, l = TruckLabel.reject sender true →
      s.busy = true → s.current_bin ≠ some sender)
    (hs : s.busy = true → s.current_bin ≠ none) :
    (truckStep l s).busy = true → (truckStep l s).current_bin ≠ none := by
  cases l with
  | cfp env sender body =>
    obtain ⟨hb, hc⟩ := handle_cfp_busy_bin s env sender body
    simp only [truckStep]
    intro h
    rw [hc]
    exact hs (by rw [← hb]; exact h)
  | acceptBegin sender =>
    intro h hnone
    simp only [truckStep] at hnone
    exact Option.noConfusion hnone
  | missionRest env sender binPos level roll dur =>
    intro h
    exact Bool.noConfusion h
  | acceptMalformed sender =>
    intro h
    exact Bool.noConfusion h
  | reject sender ok =>
    simp only [truckStep, TruckState.handle_rejection]
    cases ok with
    | false =>
      rw [if_neg (by simp)]
      exact hs
    | true =>
      rw [if_pos rfl]
      by_cases hcb : s.current_bin = some sender
      · rw [if_pos hcb]
        intro hb
        exact absurd hcb (hl sender rfl hb)
      · rw [if_neg hcb]
        exact hs

/-- Closed instantiation of the amended C4 theorem: a busy truck processing a
cfp keeps `currentBin` set. -/
theorem C4_amended_witness :
    ((truckStep (.cfp envT "bin2@localhost" none) truckBusy1).current_bin).isSome = true :=
  Option.isSome_iff_ne_none.mpr
    (C4_invariant_preserved_except_reject_current (.cfp envT "bin2@localhost" none) truckBusy1
      (fun sender h => nomatch h)
      (fun _ => by with_unfolding_all decide)
      (by with_unfolding_all decide))

/-! ### C5 -/

/-- C5 counterexample: an interleaving of the composite system in which the
still-free truck answers the CFPs of two different full bins with proposals,
after which each bin (knowing a single truck, so selection fires as soon as
it has responded) selects that same truck: two distinct bins simultaneously
hold the truck as their `selectedTruck`.  The truck becomes busy only when
its `HandleAcceptance` behavior later processes an accept-proposal, so no
refusal ever happened. -/
theorem C5_counterexample :
    SysReach sysT0 sysT6 ∧
    sysT6.bin1.jid ≠ sysT6.bin2.jid ∧
    sysT6.bin1.selected_truck = some "truck1@localhost" ∧
    sysT6.bin2.selected_truck = some "truck1@localhost" := by
  refine ⟨?_, ?_, ?_, ?_⟩
  · have h01 : SysStep sysT0 sysT1 :=
      SysStep.binMonitor1 sysT0 0 0 0 (by with_unfolding_all decide)
        (by with_unfolding_all decide)
    have h12 : SysStep sysT1 sysT2 :=
      SysStep.binMonitor2 sysT1 0 0 0 (by with_unfolding_all decide)
        (by with_unfolding_all decide)
    have h23 : SysStep sysT2 sysT3 :=
      SysStep.truckCfp sysT2 msgCfp1 (1, 0) 100 10 false (by with_unfolding_all decide)
        (by with_unfolding_all decide) (by with_unfolding_all decide)
    have h34 : SysStep sysT3 sysT4 :=
      SysStep.truckCfp sysT3 msgCfp2 (2, 0) 100 10 false (by with_unfolding_all decide)
        (by with_unfolding_all decide) (by with_unfolding_all decide)
    have h45 : SysStep sysT4 sysT5 :=
      SysStep.binPropose1 sysT4 msgProp1 1 0 (by with_unfolding_all decide)
        (by with_unfolding_all decide) (by with_unfolding_all decide)
    have h56 : SysStep sysT5 sysT6 :=
      SysStep.binPropose2 sysT5 msgProp2 2 0 (by with_unfolding_all decide)
        (by with_unfolding_all decide) (by with_unfolding_all decide)
    exact (((((Relation.ReflTransGen.refl.tail h01).tail h12).tail h23).tail
      h34).tail h45).tail h56
  · with_unfolding_all decide
  · with_unfolding_all decide
  · with_unfolding_all decide

/-- C5 (amended): the first half of the claim holds — while `busy` is true,
every cfp the truck processes is answered with a single `refuse`
(`MALFUNCTIONED` or `BUSY`), never a `propose`.  The second half is false
(see the counterexample): two distinct bins can simultaneously have the truck
as `selectedTruck`, because the truck becomes busy only upon processing an
accept-proposal and may have outstanding proposals at several bins. -/
theorem C5_busy_truck_refuses (env : Env) (s : TruckState) (sender : String)
    (body : Option ((ℤ × ℤ) × ℚ)) (hb : s.busy = true) :
    (s.handle_cfp env sender body).2 =
      [mkRefuse (s.update_malfunction_status env).jid sender
        (if (s.update_malfunction_status env).malfunctioned then "MALFUNCTIONED"
         else "BUSY")] ∧
    ∀ m ∈ (s.handle_cfp env sender body).2, ∀ cost, m.payload ≠ Payload.propose cost := by
  obtain ⟨hb2, -, -⟩ := update_malf_fields s env
  have hbusy : (s.update_malfunction_status env).busy = true := by rw [hb2]; exact hb
  have hres : (s.handle_cfp env sender body).2 =
      [mkRefuse (s.update_malfunction_status env).jid sender
        (if (s.update_malfunction_status env).malfunctioned then "MALFUNCTIONED"
         else "BUSY")] := by
    unfold TruckState.handle_cfp
    by_cases hm : (s.update_malfunction_status env).malfunctioned
    · rw [if_pos hm, if_pos hm]
    · rw [if_neg hm, if_pos hbusy, if_neg hm]
  refine ⟨hres, ?_⟩
  intro m hm cost
  rw [hres] at hm
  simp only [List.mem_singleton] at hm
  subst hm
  simp [mkRefuse]

/-- Closed instantiation of the amended C5 theorem: the busy truck refuses a
new cfp with `BUSY`. -/
theorem C5_amended_witness :
    (truckBusy1.handle_cfp envT "bin2@localhost" (some ((5, 0), 10))).2 =
      [mkRefuse "truck1@localhost" "bin2@localhost" "BUSY"] := by
  rw [(C5_busy_truck_refuses envT truckBusy1 "bin2@localhost" (some ((5, 0), 10))
    (by with_unfolding_all decide)).1]
  with_unfolding_all decide

/-! ### C6 -/

/-- C6: a cfp processed by an available, non-malfunctioned truck whose load
plus the bin's level fits the waste capacity is answered from the planned
distance — the travel cost to the bin, plus the bin-to-depot travel cost when
`currentWaste + level ≥ wasteCapacity × wasteThreshold`: with
`refuse("NO_FUEL")` (and no propose) when
`plannedDistance × fuelConsumption > fuelLevel`, and otherwise with a propose
of exactly `plannedDistance × (1 + currentWaste / wasteCapacity)`. -/
theorem C6_cfp_cost_and_fuel_gate (env : Env) (s : TruckState) (sender : String)
    (binPos : ℤ × ℤ) (level : ℚ)
    (hmal : s.malfunctioned = false) (hb : s.busy = false)
    (hcap : s.current_waste + level ≤ s.waste_capacity) :
    (s.handle_cfp env sender (some (binPos, level))).2 =
      (if (if s.current_waste + level ≥ s.waste_capacity * s.waste_threshold_frac
           then env.get_travel_cost s.position binPos +
             env.get_travel_cost binPos env.depotPos
           else env.get_travel_cost s.position binPos) * s.fuel_consumption >
            s.fuel_level
       then [mkRefuse s.jid sender "NO_FUEL"]
       else [mkPropose s.jid sender
         ((if s.current_waste + level ≥ s.waste_capacity * s.waste_threshold_frac
           then env.get_travel_cost s.position binPos +
             env.get_travel_cost binPos env.depotPos
           else env.get_travel_cost s.position binPos) *
           (1 + s.current_waste / s.waste_capacity))]) := by
  have hupd : s.update_malfunction_status env = s := update_malfunction_of_not s env hmal
  simp only [TruckState.handle_cfp, calculate_mission_cost, hupd]
  rw [if_neg (by simp [hmal]), if_neg (by simp [hb]), if_neg (not_lt.mpr hcap)]
  by_cases hf : (if s.current_waste + level ≥ s.waste_capacity * s.waste_threshold_frac
      then env.get_travel_cost s.position binPos + env.get_travel_cost binPos env.depotPos
      else env.get_travel_cost s.position binPos) * s.fuel_consumption > s.fuel_level
  · rw [if_pos hf, if_pos hf]
  · rw [if_neg hf, if_neg hf]

/-- Closed instantiation of C6: at distance 10 with no depot detour, the
empty truck bids exactly 10.0, the half-loaded truck bids exactly 15.0, and a
truck with 5 fuel for a 10-fuel trip refuses with `NO_FUEL`. -/
theorem C6_witness :
    (truckInit0.handle_cfp envT "bin1@localhost" (some ((10, 0), 5))).2 =
      [mkPropose "truck1@localhost" "bin1@localhost" 10] ∧
    (truckHalf.handle_cfp envT "bin1@localhost" (some ((10, 0), 5))).2 =
      [mkPropose "truck1@localhost" "bin1@localhost" 15] ∧
    (truckLowFuel.handle_cfp envT "bin1@localhost" (some ((10, 0), 5))).2 =
      [mkRefuse "truck1@localhost" "bin1@localhost" "NO_FUEL"] := by
  refine ⟨?_, ?_, ?_⟩
  · rw [C6_cfp_cost_and_fuel_gate envT truckInit0 "bin1@localhost" (10, 0) 5 rfl rfl
      (by with_unfolding_all decide)]
    with_unfolding_all decide
  · rw [C6_cfp_cost_and_fuel_gate envT truckHalf "bin1@localhost" (10, 0) 5 rfl rfl
      (by with_unfolding_all decide)]
    with_unfolding_all decide
  · rw [C6_cfp_cost_and_fuel_gate envT truckLowFuel "bin1@localhost" (10, 0) 5 rfl rfl
      (by with_unfolding_all decide)]
    with_unfolding_all decide

/-! ### C8 -/

/-- C8: after an accept-proposal, on EVERY exit path of the mission handler —
normal completion, malfunction abort, any raised step (insufficient fuel,
failed refuel), and a malformed message body — the truck's `busy` flag is
cleared and `currentBin` is `None`; and on every failure path the output
messages include an inform carrying `COLLECTION_FAILED` or
`TRUCK_MALFUNCTION`. -/
theorem C8_mission_cleanup (env : Env) (s0 : TruckState) (sender : String)
    (body : Option ((ℤ × ℤ) × ℚ)) (roll : Bool) (repairDur : ℚ) :
    (handle_acceptance_run env s0 sender body roll repairDur).1.busy = false ∧
    (handle_acceptance_run env s0 sender body roll repairDur).1.current_bin = none ∧
    (body = none →
      (handle_acceptance_run env s0 sender body roll repairDur).2.any isFailInform = true) ∧
    (∀ binPos level, body = some (binPos, level) →
      (execute_collection_mission env
        { s0 with busy := true, current_bin := some sender }
        binPos level sender roll repairDur).2.2 = false →
      (handle_acceptance_run env s0 sender body roll repairDur).2.any isFailInform = true) := by
  cases body with
  | none =>
    refine ⟨rfl, rfl, fun _ => ?_, fun binPos level h => by cases h⟩
    simp [handle_acceptance_run, mkInformPlainFailed, isFailInform]
  | some p =>
    obtain ⟨binPos, level⟩ := p
    rcases hE : execute_collection_mission env
        { s0 with busy := true, current_bin := some sender }
        binPos level sender roll repairDur with ⟨s2, msgs, ok⟩
    cases ok with
    | true =>
      simp only [handle_acceptance_run, hE]
      refine ⟨trivial, trivial, ?_, ?_⟩
      · intro h
        cases h
      · intro bp lv heq hfail
        obtain ⟨rfl, rfl⟩ : bp = binPos ∧ lv = level := by
          have h2 := heq.symm
          simp only [Option.some.injEq, Prod.mk.injEq] at h2
          exact h2
        rw [hE] at hfail
        cases hfail
    | false =>
      simp only [handle_acceptance_run, hE]
      refine ⟨trivial, trivial, ?_, ?_⟩
      · intro h
        cases h
      · intro bp lv heq hfail
        simp [List.any_append, isFailInform, mkInformPlainFailed]

/-- Closed instantiation of C8 at a malformed acceptance body: the truck
returns to Available and a `COLLECTION_FAILED` inform is sent. -/
theorem C8_witness :
    (handle_acceptance_run envT truckInit0 "bin1@localhost" none false 0).1.busy = false ∧
    (handle_acceptance_run envT truckInit0 "bin1@localhost" none false 0).2.any
      isFailInform = true :=
  ⟨(C8_mission_cleanup envT truckInit0 "bin1@localhost" none false 0).1,
   (C8_mission_cleanup envT truckInit0 "bin1@localhost" none false 0).2.2.1 rfl⟩

end WasteCollection
